import Mathlib

/-! campfire-exporter: the export pipeline of `main.go`

A shallow embedding of `main` (src/main.go): the derivation of the event
identifier with `path.Base`, the HTTP exchange, the decoding of the response,
the join of RSVP statuses with member edges, and the CSV write.

Effects are made explicit.  Everything the outside world decides (the result of
the HTTP exchange, of the decoder, of opening and writing the file) is an input
of the run, collected in `Env`; everything the program does to the outside
world is recorded, in order, in a trace of `Event`s.
-/

set_option linter.dupNamespace false

namespace Campfire

/-! ## Data model -/

/-- Modelled from the spec: the declaration of the type `Member` is not in
main.go; main.go reads the fields `ID` and `DisplayName` of a node. -/
structure Member where
  ID : String
  DisplayName : String
  deriving DecidableEq, Repr

/-- Modelled from the spec: the declaration of the type `MemberEdge` is not in
main.go; main.go reads the field `Node` of an edge. -/
structure MemberEdge where
  Node : Member
  deriving DecidableEq, Repr

/-- Modelled from the spec: the declaration of the type `RSVPStatus` is not in
main.go; main.go reads the fields `UserID` and `RSVPStatus` of an entry. -/
structure RSVPStatus where
  UserID : String
  RSVPStatus : String
  deriving DecidableEq, Repr

/-- Modelled from the spec: the member connection `resp.Data.Event.Members`,
of which main.go reads `Edges`. -/
structure Members where
  Edges : List MemberEdge
  deriving DecidableEq, Repr

/-- Modelled from the spec: the event `resp.Data.Event`, of which main.go reads
`RSVPStatuses` and `Members.Edges`. -/
structure EventData where
  RSVPStatuses : List RSVPStatus
  Members : Members
  deriving DecidableEq, Repr

/-- Modelled from the spec: the payload `resp.Data`, of which main.go reads
`Event`. -/
structure RespData where
  Event : EventData
  deriving DecidableEq, Repr

/-- Modelled from the spec: the declaration of the type `Resp` is not in
main.go; main.go reads `resp.Data.Event`. -/
structure Resp where
  Data : RespData
  deriving DecidableEq, Repr

/-- The variables of the GraphQL request, main.go lines 46-50. -/
structure Variables where
  id : String
  isLoggedIn : Bool
  pageSize : Nat
  deriving DecidableEq, Repr

/-- Modelled from the spec: the declaration of the type `Req` is not in
main.go; main.go fills the fields `Query` and `Variables`. -/
structure Req where
  Query : String
  Variables : Variables
  deriving DecidableEq, Repr

/-- The constant `graphQLEndpoint`, main.go line 18. -/
def graphQLEndpoint : String := "https://niantic-social-api.nianticlabs.com/graphql"

/-! ## `path.Base` (Go standard library, package `path`) -/

/-- The loop `for len(path) > 0 && path[len(path)-1] == '/'` of `path.Base`,
which drops one trailing slash per iteration; `fuel` bounds the iterations. -/
def stripTrailingSlashes : Nat → List Char → List Char
  | 0, p => p
  | fuel + 1, p =>
    if p.length > 0 ∧ p.getLast? = some '/' then stripTrailingSlashes fuel p.dropLast else p

/-- Scan of `strings.LastIndex(s, "/")` generalised to a byte `c`: `i` is the
index of the head of the list, `acc` the last index found so far. -/
def lastIndexFrom (c : Char) : List Char → Nat → Int → Int
  | [], _, acc => acc
  | x :: xs, i, acc => lastIndexFrom c xs (i + 1) (if x = c then (i : Int) else acc)

/-- The function `strings.LastIndex(s, "/")`: the index of the last `c` in `s`,
or `-1` when there is none. -/
def lastIndex (s : List Char) (c : Char) : Int := lastIndexFrom c s 0 (-1)

/-- The function `path.Base` on the characters of the path. -/
def baseChars (path : List Char) : List Char :=
  if path = [] then ['.']
  else
    let path1 := stripTrailingSlashes path.length path
    let i := lastIndex path1 '/'
    let path2 := if i ≥ 0 then path1.drop (i + 1).toNat else path1
    if path2 = [] then ['/'] else path2

/-- The function `path.Base`: the last element of a slash-separated path. -/
def pathBase (path : String) : String := String.mk (baseChars path.data)

/-! ## The join of RSVP statuses with member edges (main.go lines 92-108) -/

/-- The loop of `slices.IndexFunc`: `i` is the index of the head of the list. -/
def indexFuncFrom {α : Type} (f : α → Bool) : List α → Nat → Int
  | [], _ => -1
  | e :: es, i => if f e then (i : Int) else indexFuncFrom f es (i + 1)

/-- The function `slices.IndexFunc`: the first index whose element satisfies
`f`, or `-1` when there is none. -/
def indexFunc {α : Type} (s : List α) (f : α → Bool) : Int := indexFuncFrom f s 0

/-- The state of the loop: the records built so far and the warning lines
logged so far, both in order. -/
structure JoinState where
  records : List (List String)
  warnings : List String
  deriving DecidableEq, Repr

/-- The header row, main.go line 93. -/
def header : List String := ["id", "name", "status"]

/-- The line logged for an RSVP entry without a member, main.go line 100. -/
def warningLine (userID : String) : String :=
  "Warning: RSVP member " ++ userID ++ " not found"

/-- One iteration of the loop body, main.go lines 96-107.  The result is `none`
when the index expression `Edges[i]` is out of range (a run-time panic). -/
def joinStep (edges : List MemberEdge) (st : JoinState) (rsvpStatus : RSVPStatus) :
    Option JoinState :=
  let i := indexFunc edges (fun e => e.Node.ID == rsvpStatus.UserID)
  if i < 0 then
    some { st with warnings := st.warnings ++ [warningLine rsvpStatus.UserID] }
  else
    match edges[i.toNat]? with
    | none => none
    | some e =>
      some { st with
        records := st.records ++ [[rsvpStatus.UserID, e.Node.DisplayName, rsvpStatus.RSVPStatus]] }

/-- The loop `for _, rsvpStatus := range resp.Data.Event.RSVPStatuses`. -/
def joinLoop (edges : List MemberEdge) : JoinState → List RSVPStatus → Option JoinState
  | st, [] => some st
  | st, r :: rs =>
    match joinStep edges st r with
    | none => none
    | some st1 => joinLoop edges st1 rs

/-- The join as main runs it: the records start as the header row alone. -/
def join (rsvps : List RSVPStatus) (edges : List MemberEdge) : Option JoinState :=
  joinLoop edges { records := [header], warnings := [] } rsvps

/-! ## The run of `main` -/

/-- The command-line flags after `flag.Parse`, main.go lines 24-26. -/
structure Flags where
  url : String
  output : String
  debug : Bool
  deriving DecidableEq, Repr

/-- The request handed to `client.Do`: a POST to the endpoint with the two
headers set on lines 60-61 and the encoded `Req` as its body. -/
structure Request where
  method : String
  url : String
  contentType : String
  accept : String
  body : Req
  deriving DecidableEq, Repr

/-- The response returned by `client.Do`: its status code and the bytes its
body reader delivers. -/
structure Response where
  StatusCode : Nat
  Body : String
  deriving DecidableEq, Repr

/-- What the outside world answers during one run.

* `graphQLQuery` is the embedded file query.graphql, which is not in main.go;
* `encodeErr`, `newRequestErr` are the errors of `Encode` and `http.NewRequest`;
* `doResult` is the result of `client.Do`;
* `decodeRead` is the number of body bytes the JSON decoder has pulled through
  the tee reader when `Decode` returns, `decodeResult` is what `Decode` returns;
* `openErr` and `writeErr` are the errors of `os.OpenFile` and `WriteAll`;
* `fmtResp` renders a response with the verb `%+v`, `quote` renders a string
  with the verb `%q`. -/
structure Env where
  graphQLQuery : String
  encodeErr : Option String
  newRequestErr : Option String
  doResult : Except String Response
  decodeRead : Nat
  decodeResult : Except String Resp
  openErr : Option String
  writeErr : Option String
  fmtResp : Resp → String
  quote : String → String

/-- The effects of a run, in the order in which they happen. -/
inductive Event where
  | usage
  | log (line : String)
  | send (rq : Request)
  | closeBody
  | openFile (path : String)
  | writeAll (path : String) (records : List (List String)) (err : Option String)
  | closeFile (path : String)
  | exit (code : Nat)
  deriving DecidableEq, Repr

/-- The place of main.go at which the run ends. -/
inductive Site where
  | usage
  | invalidURL
  | encodeFailed
  | newRequestFailed
  | sendFailed
  | badStatus
  | decodeFailed
  | openFailed
  | indexPanic
  | writeFailed
  | done
  deriving DecidableEq, Repr

/-- The result of a run: where it ended, the exit status of the process, the
message of `log.Fatalf` when the run ended in one, and the trace of effects. -/
structure Outcome where
  site : Site
  exitCode : Nat
  fatalMsg : Option String
  trace : List Event
  deriving DecidableEq, Repr

/-- The call `log.Fatalf`: it prints the message and calls `os.Exit(1)`, which
ends the process at once; deferred calls are not run. -/
def fatalf (site : Site) (before : List Event) (msg : String) : Outcome :=
  { site := site, exitCode := 1, fatalMsg := some msg,
    trace := before ++ [Event.log msg, Event.exit 1] }

/-- The request built on lines 44-61. -/
def buildRequest (query eventID : String) : Request :=
  { method := "POST", url := graphQLEndpoint,
    contentType := "application/json", accept := "application/json",
    body := { Query := query,
              Variables := { id := eventID, isLoggedIn := false, pageSize := 10000000000 } } }

/-- The text captured by `logBuf`: the first `n` bytes of the body, those the
decoder has read through `io.TeeReader`. -/
def teeText (body : String) (n : Nat) : String := String.mk (body.data.take n)

/-- Lines 86-114: from `os.OpenFile` to the end of main.  `before` is the
trace so far. -/
def writeStage (flags : Flags) (env : Env) (resp : Resp) (before : List Event) : Outcome :=
  match env.openErr with
  | some err =>
    fatalf Site.openFailed before
      ("Failed to open output file " ++ env.quote flags.output ++ ": " ++ err)
  | none =>
    let opened := before ++ [Event.openFile flags.output]
    match join resp.Data.Event.RSVPStatuses resp.Data.Event.Members.Edges with
    | none =>
      { site := Site.indexPanic, exitCode := 2, fatalMsg := none,
        trace := opened ++ [Event.closeFile flags.output, Event.closeBody, Event.exit 2] }
    | some st =>
      let joined := opened ++ st.warnings.map Event.log
      let written := joined ++ [Event.writeAll flags.output st.records env.writeErr]
      match env.writeErr with
      | some err => fatalf Site.writeFailed written ("Failed to write CSV: " ++ err)
      | none =>
        { site := Site.done, exitCode := 0, fatalMsg := none,
          trace := written ++
            [Event.log ("Wrote " ++ toString resp.Data.Event.Members.Edges.length ++
                " members to " ++ flags.output),
             Event.closeFile flags.output, Event.closeBody] }

/-- Lines 69-84: the check of the status code and the decoding of the body. -/
def decodeStage (flags : Flags) (env : Env) (rs : Response) (before : List Event) : Outcome :=
  if rs.StatusCode ≠ 200 then
    fatalf Site.badStatus before
      ("Request failed with status code: " ++ toString rs.StatusCode ++
        ", response: " ++ rs.Body)
  else
    match env.decodeResult with
    | Except.error err =>
      fatalf Site.decodeFailed before
        ("Failed to decode response: " ++ err ++ ", response: " ++ teeText rs.Body env.decodeRead)
    | Except.ok resp =>
      let logged := if flags.debug then before ++ [Event.log ("Response: " ++ env.fmtResp resp)]
                    else before
      writeStage flags env resp logged

/-- The function `main`, after `flag.Parse`. -/
def run (flags : Flags) (env : Env) : Outcome :=
  if flags.url = "" then
    { site := Site.usage, exitCode := 0, fatalMsg := none, trace := [Event.usage] }
  else
    let eventID := pathBase flags.url
    if eventID = "" then
      fatalf Site.invalidURL [] ("Invalid URL: " ++ flags.url)
    else
      match env.encodeErr with
      | some err => fatalf Site.encodeFailed [] ("Failed to encode request body: " ++ err)
      | none =>
        match env.newRequestErr with
        | some err => fatalf Site.newRequestFailed [] ("Failed to create request: " ++ err)
        | none =>
          let rq := buildRequest env.graphQLQuery eventID
          match env.doResult with
          | Except.error err =>
            fatalf Site.sendFailed [Event.send rq] ("Failed to send request: " ++ err)
          | Except.ok rs => decodeStage flags env rs [Event.send rq]

/-! ## The file system as the trace leaves it -/

/-- The contents of an output file: the records of a completed `WriteAll`, or
what an interrupted `WriteAll` of these records left behind. -/
inductive FileData where
  | csv (records : List (List String))
  | incomplete (records : List (List String))
  deriving DecidableEq, Repr

/-- A file system: the contents of each path that exists. -/
def FS : Type := String → Option FileData

/-- The effect of one event on the file system.  `os.OpenFile` with
`O_CREATE|O_WRONLY|O_TRUNC` leaves an empty file at the path. -/
def applyEvent (fs : FS) : Event → FS
  | Event.openFile path => fun p => if p = path then some (FileData.csv []) else fs p
  | Event.writeAll path records none =>
    fun p => if p = path then some (FileData.csv records) else fs p
  | Event.writeAll path records (some _) =>
    fun p => if p = path then some (FileData.incomplete records) else fs p
  | _ => fs

/-- The file system after a trace. -/
def fsAfter (fs : FS) (trace : List Event) : FS := trace.foldl applyEvent fs

/-- The string `part` occurs in the string `msg`. -/
def Contains (msg part : String) : Prop := part.data <:+: msg.data

instance (msg part : String) : Decidable (Contains msg part) := by
  unfold Contains; infer_instance

/-- An event that opens, truncates or writes a file. -/
def Event.touchesFile : Event → Bool
  | Event.openFile _ => true
  | Event.writeAll _ _ _ => true
  | _ => false

/-! ## A map-based join, for comparison -/

/-- A lookup from member ID to display name, as a list of bindings. -/
abbrev Lookup : Type := List (String × String)

/-- The display name bound to an ID, if any. -/
def Lookup.find (m : Lookup) (id : String) : Option String := List.lookup id m

/-- Bind `id` to `name` unless `id` is bound already: the first edge of an ID
is the one that stays. -/
def Lookup.insertIfAbsent (m : Lookup) (id name : String) : Lookup :=
  match m.find id with
  | some _ => m
  | none => m ++ [(id, name)]

/-- The lookup built once from the member edges, in member-list order. -/
def buildLookup (edges : List MemberEdge) : Lookup :=
  edges.foldl (fun m e => m.insertIfAbsent e.Node.ID e.Node.DisplayName) []

/-- One RSVP entry of the map-based join: a row when the ID is bound, a warning
and no row when it is not. -/
def mapJoinStep (m : Lookup) (st : JoinState) (rsvpStatus : RSVPStatus) : JoinState :=
  match m.find rsvpStatus.UserID with
  | none => { st with warnings := st.warnings ++ [warningLine rsvpStatus.UserID] }
  | some name =>
    { st with records := st.records ++ [[rsvpStatus.UserID, name, rsvpStatus.RSVPStatus]] }

/-- The map-based join: build the lookup once, then map over the RSVP list in
order. -/
def mapJoin (rsvps : List RSVPStatus) (edges : List MemberEdge) : JoinState :=
  rsvps.foldl (mapJoinStep (buildLookup edges)) { records := [header], warnings := [] }

/-! ## Reading the join as a filter-map -/

/-- The first member edge, in member-list order, whose node has the given ID. -/
def firstEdge (edges : List MemberEdge) (userID : String) : Option MemberEdge :=
  edges.find? (fun e => e.Node.ID == userID)

/-- The row of an RSVP entry: present when a member edge has its user ID. -/
def rowOf (edges : List MemberEdge) (r : RSVPStatus) : Option (List String) :=
  (firstEdge edges r.UserID).map (fun e => [r.UserID, e.Node.DisplayName, r.RSVPStatus])

/-- The warning of an RSVP entry: present when no member edge has its user ID. -/
def warningOf (edges : List MemberEdge) (r : RSVPStatus) : Option String :=
  match firstEdge edges r.UserID with
  | some _ => none
  | none => some (warningLine r.UserID)

/-! ## Lemmas on the join -/

theorem indexFuncFrom_none {α : Type} (f : α → Bool) (es : List α) (k : Nat)
    (h : es.find? f = none) : indexFuncFrom f es k = -1 := by
  induction es generalizing k with
  | nil => rfl
  | cons e es ih =>
    by_cases hf : f e = true
    · simp [List.find?, hf] at h
    · have hfe : f e = false := by simpa using hf
      simp only [List.find?, hfe] at h
      simp only [indexFuncFrom, hfe, Bool.false_eq_true, if_false]
      exact ih (k + 1) h

theorem indexFuncFrom_some {α : Type} (f : α → Bool) (es : List α) (k : Nat) (a : α)
    (h : es.find? f = some a) :
    ∃ n : Nat, indexFuncFrom f es k = ((k + n : Nat) : Int) ∧ es[n]? = some a := by
  induction es generalizing k with
  | nil => simp at h
  | cons e es ih =>
    by_cases hf : f e = true
    · simp only [List.find?, hf] at h
      refine ⟨0, ?_, ?_⟩
      · simp [indexFuncFrom, hf]
      · simpa using h
    · have hfe : f e = false := by simpa using hf
      simp only [List.find?, hfe] at h
      obtain ⟨n, hn, hget⟩ := ih (k + 1) h
      refine ⟨n + 1, ?_, ?_⟩
      · simp only [indexFuncFrom, hfe, Bool.false_eq_true, if_false]
        rw [hn]
        congr 1
        omega
      · simpa using hget

theorem joinStep_eq (edges : List MemberEdge) (st : JoinState) (r : RSVPStatus) :
    joinStep edges st r =
      some (match firstEdge edges r.UserID with
        | none => { st with warnings := st.warnings ++ [warningLine r.UserID] }
        | some e =>
          { st with
            records := st.records ++ [[r.UserID, e.Node.DisplayName, r.RSVPStatus]] }) := by
  unfold joinStep firstEdge indexFunc
  cases h : edges.find? (fun e => e.Node.ID == r.UserID) with
  | none =>
    have h1 := indexFuncFrom_none _ edges 0 h
    simp [h1]
  | some a =>
    obtain ⟨n, hn, hget⟩ := indexFuncFrom_some _ edges 0 a h
    have hlt : ¬ (indexFuncFrom (fun e => e.Node.ID == r.UserID) edges 0 < 0) := by
      rw [hn]; omega
    have htn : (indexFuncFrom (fun e => e.Node.ID == r.UserID) edges 0).toNat = n := by
      rw [hn]; simp
    simp only [hlt, if_false, htn, hget]

theorem joinLoop_eq (edges : List MemberEdge) (st : JoinState) (rs : List RSVPStatus) :
    joinLoop edges st rs =
      some { records := st.records ++ rs.filterMap (rowOf edges),
             warnings := st.warnings ++ rs.filterMap (warningOf edges) } := by
  induction rs generalizing st with
  | nil => simp [joinLoop]
  | cons r rs ih =>
    simp only [joinLoop, joinStep_eq]
    cases h : firstEdge edges r.UserID with
    | none => simp [ih, rowOf, warningOf, h, List.filterMap_cons]
    | some e => simp [ih, rowOf, warningOf, h, List.filterMap_cons]

theorem join_eq (rsvps : List RSVPStatus) (edges : List MemberEdge) :
    join rsvps edges =
      some { records := header :: rsvps.filterMap (rowOf edges),
             warnings := rsvps.filterMap (warningOf edges) } := by
  simp [join, joinLoop_eq]

theorem firstEdge_eq_none (edges : List MemberEdge) (userID : String)
    (h : ∀ e ∈ edges, e.Node.ID ≠ userID) : firstEdge edges userID = none := by
  simp only [firstEdge, List.find?_eq_none]
  intro e he
  simpa using h e he

/-! ## Lemmas on `path.Base` -/

theorem stripTrailingSlashes_id (fuel : Nat) (p : List Char) (h : p.getLast? ≠ some '/') :
    stripTrailingSlashes fuel p = p := by
  cases fuel with
  | zero => rfl
  | succ n => simp [stripTrailingSlashes, h]

theorem stripTrailingSlashes_done (fuel : Nat) (p : List Char) (h : p.length ≤ fuel) :
    (stripTrailingSlashes fuel p).getLast? ≠ some '/' := by
  induction fuel generalizing p with
  | zero =>
    have hp : p = [] := List.length_eq_zero.mp (Nat.le_zero.mp h)
    simp [stripTrailingSlashes, hp]
  | succ n ih =>
    unfold stripTrailingSlashes
    by_cases hc : p.length > 0 ∧ p.getLast? = some '/'
    · simp only [hc, and_self, if_true]
      apply ih
      rw [List.length_dropLast]
      omega
    · simp only [hc, if_false]
      intro hl
      apply hc
      refine ⟨?_, hl⟩
      cases p with
      | nil => simp at hl
      | cons c cs => simp

theorem lastIndexFrom_absent (c : Char) (s : List Char) (i : Nat) (acc : Int)
    (h : c ∉ s) : lastIndexFrom c s i acc = acc := by
  induction s generalizing i acc with
  | nil => rfl
  | cons x xs ih =>
    have hx : x ≠ c := fun hxc => h (by simp [hxc])
    have hxs : c ∉ xs := fun hc => h (List.mem_cons_of_mem _ hc)
    simp only [lastIndexFrom, hx, if_false]
    exact ih (i + 1) acc hxs

theorem lastIndexFrom_append (c : Char) (xs ys : List Char) (i : Nat) (acc : Int) :
    lastIndexFrom c (xs ++ ys) i acc =
      lastIndexFrom c ys (i + xs.length) (lastIndexFrom c xs i acc) := by
  induction xs generalizing i acc with
  | nil => simp [lastIndexFrom]
  | cons x xs ih =>
    simp only [List.cons_append, lastIndexFrom, List.length_cons, List.append_eq]
    rw [ih]
    congr 1
    omega

theorem lastIndex_segment (p s : List Char) (h : '/' ∉ s) :
    lastIndex (p ++ '/' :: s) '/' = (p.length : Int) := by
  unfold lastIndex
  rw [lastIndexFrom_append]
  simp only [lastIndexFrom, if_true, Nat.zero_add]
  exact lastIndexFrom_absent _ _ _ _ h

theorem baseChars_segment (p s : List Char) (hs : s ≠ []) (h : '/' ∉ s) :
    baseChars (p ++ '/' :: s) = s := by
  have hlast : (p ++ '/' :: s).getLast? ≠ some '/' := by
    have hsplit : p ++ '/' :: s = (p ++ ['/']) ++ s := by simp
    rw [hsplit, List.getLast?_append_of_ne_nil _ hs]
    intro hl
    exact h (List.mem_of_getLast?_eq_some hl)
  unfold baseChars
  have hne : p ++ '/' :: s ≠ [] := by simp
  simp only [hne, if_false, stripTrailingSlashes_id _ _ hlast, lastIndex_segment p s h]
  have hge : (p.length : Int) ≥ 0 := by omega
  have htn : ((p.length : Int) + 1).toNat = p.length + 1 := by omega
  simp only [hge, if_true, htn]
  have hdrop : List.drop (p.length + 1) (p ++ '/' :: s) = s := by
    rw [List.drop_append_eq_append_drop]
    simp
  simp [hdrop, hs]

theorem baseChars_ne_nil (path : List Char) : baseChars path ≠ [] := by
  unfold baseChars
  by_cases h : path = []
  · simp [h]
  · simp only [h, if_false]
    split_ifs with h2 <;> simp_all

theorem pathBase_ne_empty (url : String) : pathBase url ≠ "" := by
  intro h
  have hd := congrArg String.data h
  exact baseChars_ne_nil url.data hd

/-! ## Lemmas on the lookup -/

theorem lookup_append_pair (m : Lookup) (k id name : String) :
    List.lookup k (m ++ [(id, name)]) =
      match List.lookup k m with
      | some v => some v
      | none => if k = id then some name else none := by
  induction m with
  | nil =>
    by_cases hk : k = id
    · simp [List.lookup, hk]
    · have : (k == id) = false := by simpa using hk
      simp [List.lookup, hk, this]
  | cons kv m ih =>
    obtain ⟨k1, v1⟩ := kv
    by_cases hk : k = k1
    · simp [List.lookup, hk]
    · have : (k == k1) = false := by simpa using hk
      simp only [List.cons_append, List.lookup, this]
      exact ih

theorem foldl_insert_find (edges : List MemberEdge) (m : Lookup) (k : String) :
    Lookup.find
        (edges.foldl (fun m e => m.insertIfAbsent e.Node.ID e.Node.DisplayName) m) k =
      match Lookup.find m k with
      | some v => some v
      | none => (firstEdge edges k).map (fun e => e.Node.DisplayName) := by
  induction edges generalizing m with
  | nil =>
    simp only [List.foldl, firstEdge, List.find?, Option.map]
    cases Lookup.find m k <;> rfl
  | cons e es ih =>
    simp only [List.foldl]
    rw [ih]
    unfold Lookup.insertIfAbsent
    cases hme : Lookup.find m e.Node.ID with
    | some v =>
      simp only
      cases hmk : Lookup.find m k with
      | some w => rfl
      | none =>
        have hne : e.Node.ID ≠ k := by
          intro heq
          rw [heq] at hme
          rw [hme] at hmk
          cases hmk
        have hb : (e.Node.ID == k) = false := by simpa using hne
        simp [firstEdge, List.find?, hb]
    | none =>
      simp only [Lookup.find, lookup_append_pair]
      cases hmk : List.lookup k m with
      | some w => rfl
      | none =>
        by_cases hk : k = e.Node.ID
        · simp [firstEdge, List.find?, hk]
        · have hb : (e.Node.ID == k) = false := by
            simpa using fun h => hk h.symm
          simp [firstEdge, List.find?, hk, hb]

theorem buildLookup_find (edges : List MemberEdge) (k : String) :
    (buildLookup edges).find k = (firstEdge edges k).map (fun e => e.Node.DisplayName) := by
  unfold buildLookup
  rw [foldl_insert_find]
  simp [Lookup.find, List.lookup]

theorem mapJoin_foldl (edges : List MemberEdge) (st : JoinState) (rs : List RSVPStatus) :
    rs.foldl (mapJoinStep (buildLookup edges)) st =
      { records := st.records ++ rs.filterMap (rowOf edges),
        warnings := st.warnings ++ rs.filterMap (warningOf edges) } := by
  induction rs generalizing st with
  | nil => simp
  | cons r rs ih =>
    simp only [List.foldl, ih, mapJoinStep, buildLookup_find]
    cases h : firstEdge edges r.UserID with
    | none => simp [rowOf, warningOf, h, List.filterMap_cons]
    | some e => simp [rowOf, warningOf, h, List.filterMap_cons]

/-! ## Lemmas on the run -/

theorem run_of_response (flags : Flags) (env : Env) (rs : Response)
    (hurl : flags.url ≠ "") (henc : env.encodeErr = none) (hreq : env.newRequestErr = none)
    (hdo : env.doResult = Except.ok rs) :
    run flags env =
      decodeStage flags env rs [Event.send (buildRequest env.graphQLQuery (pathBase flags.url))] := by
  unfold run
  simp [hurl, pathBase_ne_empty, henc, hreq, hdo]

theorem writeStage_failed (flags : Flags) (env : Env) (resp : Resp) (before : List Event)
    (err : String) (hopen : env.openErr = none) (hwrite : env.writeErr = some err) :
    writeStage flags env resp before =
      fatalf Site.writeFailed
        (before ++ [Event.openFile flags.output] ++
          (resp.Data.Event.RSVPStatuses.filterMap
            (warningOf resp.Data.Event.Members.Edges)).map Event.log ++
          [Event.writeAll flags.output
            (header :: resp.Data.Event.RSVPStatuses.filterMap
              (rowOf resp.Data.Event.Members.Edges)) (some err)])
        ("Failed to write CSV: " ++ err) := by
  unfold writeStage
  simp only [hopen, join_eq, hwrite]

theorem writeStage_done (flags : Flags) (env : Env) (resp : Resp) (before : List Event)
    (hopen : env.openErr = none) (hwrite : env.writeErr = none) :
    writeStage flags env resp before =
      { site := Site.done, exitCode := 0, fatalMsg := none,
        trace := before ++ [Event.openFile flags.output] ++
          (resp.Data.Event.RSVPStatuses.filterMap
            (warningOf resp.Data.Event.Members.Edges)).map Event.log ++
          [Event.writeAll flags.output
            (header :: resp.Data.Event.RSVPStatuses.filterMap
              (rowOf resp.Data.Event.Members.Edges)) none] ++
          [Event.log ("Wrote " ++ toString resp.Data.Event.Members.Edges.length ++
              " members to " ++ flags.output),
           Event.closeFile flags.output, Event.closeBody] } := by
  unfold writeStage
  simp only [hopen, join_eq, hwrite]

theorem run_of_decoded (flags : Flags) (env : Env) (rs : Response) (resp : Resp)
    (hurl : flags.url ≠ "") (henc : env.encodeErr = none) (hreq : env.newRequestErr = none)
    (hdo : env.doResult = Except.ok rs) (hcode : rs.StatusCode = 200)
    (hdec : env.decodeResult = Except.ok resp) :
    run flags env =
      writeStage flags env resp
        (if flags.debug then
          [Event.send (buildRequest env.graphQLQuery (pathBase flags.url))] ++
            [Event.log ("Response: " ++ env.fmtResp resp)]
         else [Event.send (buildRequest env.graphQLQuery (pathBase flags.url))]) := by
  rw [run_of_response flags env rs hurl henc hreq hdo]
  unfold decodeStage
  simp only [hcode, ne_eq, not_true_eq_false, if_false, hdec]

theorem append_three {α : Type} (xs : List α) (a b c : α) :
    xs ++ [a, b, c] = (xs ++ [a]) ++ [b, c] := by simp

theorem getLast_append_two {α : Type} (xs : List α) (a b : α) :
    (xs ++ [a, b]).getLast? = some b := by
  have h : xs ++ [a, b] = (xs ++ [a]) ++ [b] := by simp
  rw [h, List.getLast?_concat]

theorem writeStage_keeps (flags : Flags) (env : Env) (resp : Resp) (before : List Event)
    (e : Event) (h : e ∈ before) : e ∈ (writeStage flags env resp before).trace := by
  unfold writeStage
  rw [join_eq]
  cases env.openErr <;> cases env.writeErr <;> simp [fatalf, h]

theorem decodeStage_keeps (flags : Flags) (env : Env) (rs : Response) (before : List Event)
    (e : Event) (h : e ∈ before) : e ∈ (decodeStage flags env rs before).trace := by
  unfold decodeStage
  by_cases hcode : rs.StatusCode = 200
  · simp only [hcode, ne_eq, not_true_eq_false, if_false]
    cases env.decodeResult with
    | error err => simp [fatalf, h]
    | ok resp =>
      apply writeStage_keeps
      cases flags.debug <;> simp [h]
  · simp [hcode, fatalf, h]

theorem fsAfter_untouched (fs : FS) (trace : List Event)
    (h : ∀ e ∈ trace, e.touchesFile = false) : fsAfter fs trace = fs := by
  unfold fsAfter
  induction trace generalizing fs with
  | nil => rfl
  | cons e es ih =>
    have he : e.touchesFile = false := h e (by simp)
    have hes : ∀ x ∈ es, x.touchesFile = false := fun x hx => h x (List.mem_cons_of_mem _ hx)
    simp only [List.foldl]
    have hstep : applyEvent fs e = fs := by
      cases e <;> simp_all [applyEvent, Event.touchesFile]
    rw [hstep]
    exact ih fs hes

theorem contains_mid (a part b : String) : Contains (a ++ part ++ b) part := by
  unfold Contains
  exact ⟨a.data, b.data, by simp [String.data_append]⟩

theorem contains_end (a part : String) : Contains (a ++ part) part := by
  unfold Contains
  exact ⟨a.data, [], by simp [String.data_append]⟩

/-! ## Sample inputs -/

/-- A response with the RSVP entries `u1` and `u2` and the single member `u1`. -/
def sampleResp : Resp :=
  { Data := { Event := {
      RSVPStatuses := [{ UserID := "u1", RSVPStatus := "going" },
                       { UserID := "u2", RSVPStatus := "going" }],
      Members := { Edges := [{ Node := { ID := "u1", DisplayName := "Alice" } }] } } } }

/-- A world in which every step succeeds: the server answers `code` with the
body `body`, and the decoder reads the whole body and returns `resp`. -/
def sampleEnv (code : Nat) (body : String) (resp : Resp) : Env :=
  { graphQLQuery := "query", encodeErr := none, newRequestErr := none,
    doResult := Except.ok { StatusCode := code, Body := body },
    decodeRead := body.length, decodeResult := Except.ok resp,
    openErr := none, writeErr := none,
    fmtResp := fun _ => "resp", quote := fun s => "\"" ++ s ++ "\"" }

/-- The flags of a usual call. -/
def sampleFlags : Flags :=
  { url := "https://campfire.nianticlabs.com/discover/meetup/abc-123",
    output := "export.csv", debug := false }

/-! ## The claims -/

/-- C1: for every RSVP list and member-edge list the join returns, and its
records are the header row followed by one row per RSVP entry, in RSVP order,
whose user ID is the node ID of some member edge; the row holds the user ID,
the display name of the first such edge in member order, and the RSVP status.
RSVPs [u1 going] with members [u1 Alice] give the header and [u1, Alice, going]. -/
theorem join_records_filterMap (rsvps : List RSVPStatus) (edges : List MemberEdge) :
    (∃ st, join rsvps edges = some st ∧
      st.records =
        ["id", "name", "status"] ::
          rsvps.filterMap (fun r =>
            (edges.find? (fun e => e.Node.ID == r.UserID)).map
              (fun e => [r.UserID, e.Node.DisplayName, r.RSVPStatus]))) ∧
    (join [{ UserID := "u1", RSVPStatus := "going" }]
        [{ Node := { ID := "u1", DisplayName := "Alice" } }]).map JoinState.records =
      some [["id", "name", "status"], ["u1", "Alice", "going"]] := by
  refine ⟨⟨_, join_eq rsvps edges, rfl⟩, ?_⟩
  decide

theorem pathBase_segment (p s : String) (hs : s ≠ "") (hslash : '/' ∉ s.data) :
    pathBase (p ++ "/" ++ s) = s := by
  have hne : s.data ≠ [] := by
    intro h
    apply hs
    cases s
    simp_all
  have hdata : (p ++ "/" ++ s).data = p.data ++ '/' :: s.data := by
    simp [String.data_append]
  unfold pathBase
  rw [hdata, baseChars_segment p.data s.data hne hslash]

/-- C3: for a URL of the form p/s, where s is not empty and has no slash, the
event identifier computed by path.Base is exactly s; and main, called with this
URL, uses s as the identifier: once the request is built, the request it sends
carries the variable id = s. -/
theorem pathBase_last_segment (p s : String) (hs : s ≠ "") (hslash : '/' ∉ s.data) :
    pathBase (p ++ "/" ++ s) = s ∧
    (∀ (flags : Flags) (env : Env), flags.url = p ++ "/" ++ s →
      env.encodeErr = none → env.newRequestErr = none →
      Event.send (buildRequest env.graphQLQuery s) ∈ (run flags env).trace) := by
  have hbase := pathBase_segment p s hs hslash
  refine ⟨hbase, ?_⟩
  intro flags env hurl henc hreq
  have hne : flags.url ≠ "" := by
    rw [hurl]
    intro h
    have hd := congrArg String.data h
    simp [String.data_append] at hd
  unfold run
  simp only [hne, if_false, pathBase_ne_empty, henc, hreq]
  rw [hurl, hbase]
  cases env.doResult with
  | error err => simp [fatalf]
  | ok rs => exact decodeStage_keeps _ _ _ _ _ (by simp)

/-- Witness of C3: the URL ending in /meetup/abc-123 gives abc-123, and the
request of a run with this URL carries the id abc-123. -/
theorem pathBase_last_segment_witness :
    "abc-123" ≠ "" ∧ '/' ∉ "abc-123".data ∧
      pathBase ("https://campfire.nianticlabs.com/discover/meetup" ++ "/" ++ "abc-123") =
        "abc-123" ∧
      Event.send (buildRequest "query" "abc-123") ∈
        (run sampleFlags (sampleEnv 200 "body" sampleResp)).trace :=
  ⟨by decide, by decide,
    (pathBase_last_segment "https://campfire.nianticlabs.com/discover/meetup" "abc-123"
      (by decide) (by decide)).1,
    (pathBase_last_segment "https://campfire.nianticlabs.com/discover/meetup" "abc-123"
      (by decide) (by decide)).2 sampleFlags (sampleEnv 200 "body" sampleResp)
      (by decide) rfl rfl⟩

/-- C9: the linear-search join equals the map-based join: for all lists,
duplicates of member IDs included, it returns exactly the state (records and
warnings, hence the skipped entries) that the lookup built once produces. -/
theorem join_eq_mapJoin (rsvps : List RSVPStatus) (edges : List MemberEdge) :
    join rsvps edges = some (mapJoin rsvps edges) ∧
    mapJoin [{ UserID := "u1", RSVPStatus := "going" }, { UserID := "u3", RSVPStatus := "no" }]
        [{ Node := { ID := "u1", DisplayName := "Alice" } },
         { Node := { ID := "u1", DisplayName := "Bob" } }] =
      { records := [["id", "name", "status"], ["u1", "Alice", "going"]],
        warnings := ["Warning: RSVP member u3 not found"] } := by
  refine ⟨?_, by decide⟩
  rw [join_eq]
  unfold mapJoin
  rw [mapJoin_foldl]
  simp

/-- C10: path.Base never returns the empty string (the empty input gives ".",
slashes alone give "/", trailing slashes are stripped), so no run of main ends
at the Invalid URL exit. -/
theorem invalidURL_unreachable :
    (∀ url : String, pathBase url ≠ "") ∧
    pathBase "" = "." ∧ pathBase "///" = "/" ∧ pathBase "x/meetup/abc-123/" = "abc-123" ∧
    (∀ (flags : Flags) (env : Env), (run flags env).site ≠ Site.invalidURL) := by
  refine ⟨pathBase_ne_empty, by decide, by decide, by decide, ?_⟩
  intro flags env
  unfold run
  by_cases hurl : flags.url = ""
  · simp [hurl]
  · simp only [hurl, if_false, pathBase_ne_empty]
    cases henc : env.encodeErr with
    | some err => simp [fatalf]
    | none =>
      cases hreq : env.newRequestErr with
      | some err => simp [fatalf]
      | none =>
        cases hdo : env.doResult with
        | error err => simp [fatalf]
        | ok rs =>
          simp only [decodeStage]
          by_cases hcode : rs.StatusCode = 200
          · simp only [hcode, ne_eq, not_true_eq_false, if_false]
            cases hdec : env.decodeResult with
            | error err => simp [fatalf]
            | ok resp =>
              simp only [writeStage, join_eq]
              cases hopen : env.openErr with
              | some err => simp [fatalf]
              | none =>
                cases hwrite : env.writeErr with
                | some err => simp [fatalf]
                | none => simp
          · simp [hcode, fatalf]

/-- C2: an RSVP entry whose user ID is the node ID of no member edge adds no
row (the records are those of the list without the entry), adds exactly one
warning, which names the user ID, between the warnings of the entries before
and after it, and does not stop the run: when the file can be opened and
written, main ends normally with status 0 after writing these records. -/
theorem unmatched_rsvp_skipped (flags : Flags) (env : Env) (rs : Response) (resp : Resp)
    (before after : List RSVPStatus) (r : RSVPStatus)
    (hurl : flags.url ≠ "") (henc : env.encodeErr = none) (hreq : env.newRequestErr = none)
    (hdo : env.doResult = Except.ok rs) (hcode : rs.StatusCode = 200)
    (hdec : env.decodeResult = Except.ok resp)
    (hopen : env.openErr = none) (hwrite : env.writeErr = none)
    (hrsvps : resp.Data.Event.RSVPStatuses = before ++ r :: after)
    (hno : ∀ e ∈ resp.Data.Event.Members.Edges, e.Node.ID ≠ r.UserID) :
    ∃ st stRest stBefore stAfter,
      join (before ++ r :: after) resp.Data.Event.Members.Edges = some st ∧
      join (before ++ after) resp.Data.Event.Members.Edges = some stRest ∧
      join before resp.Data.Event.Members.Edges = some stBefore ∧
      join after resp.Data.Event.Members.Edges = some stAfter ∧
      st.records = stRest.records ∧
      st.warnings = stBefore.warnings ++ [warningLine r.UserID] ++ stAfter.warnings ∧
      Contains (warningLine r.UserID) r.UserID ∧
      (run flags env).site = Site.done ∧ (run flags env).exitCode = 0 ∧
      Event.log (warningLine r.UserID) ∈ (run flags env).trace ∧
      Event.writeAll flags.output st.records none ∈ (run flags env).trace := by
  have hfirst := firstEdge_eq_none _ _ hno
  have hrow : rowOf resp.Data.Event.Members.Edges r = none := by simp [rowOf, hfirst]
  have hwarn : warningOf resp.Data.Event.Members.Edges r = some (warningLine r.UserID) := by
    simp [warningOf, hfirst]
  have hrun := run_of_decoded flags env rs resp hurl henc hreq hdo hcode hdec
  rw [writeStage_done flags env resp _ hopen hwrite] at hrun
  refine ⟨_, _, _, _, join_eq _ _, join_eq _ _, join_eq _ _, join_eq _ _, ?_, ?_, ?_, ?_, ?_, ?_, ?_⟩
  · simp [List.filterMap_append, List.filterMap_cons, hrow]
  · simp [List.filterMap_append, List.filterMap_cons, hwarn]
  · exact contains_mid _ _ _
  · rw [hrun]
  · rw [hrun]
  · rw [hrun]
    simp [hrsvps, List.filterMap_append, List.filterMap_cons, hrow, hwarn]
  · rw [hrun]
    simp [hrsvps, List.filterMap_append, List.filterMap_cons, hrow, hwarn]

/-- A response with the RSVP entry `u2` and the single member `u1`. -/
def unmatchedResp : Resp :=
  { Data := { Event := {
      RSVPStatuses := [{ UserID := "u2", RSVPStatus := "going" }],
      Members := { Edges := [{ Node := { ID := "u1", DisplayName := "Alice" } }] } } } }

/-- Witness of C2: RSVPs [u2 going] with members [u1 Alice] give the header row
only, one warning for u2, and a normal end. -/
theorem unmatched_rsvp_skipped_witness :
    (∀ e ∈ unmatchedResp.Data.Event.Members.Edges, e.Node.ID ≠ "u2") ∧
    (run sampleFlags (sampleEnv 200 "body" unmatchedResp)).site = Site.done ∧
    Event.log (warningLine "u2") ∈ (run sampleFlags (sampleEnv 200 "body" unmatchedResp)).trace ∧
    Event.writeAll "export.csv" [["id", "name", "status"]] none ∈
      (run sampleFlags (sampleEnv 200 "body" unmatchedResp)).trace := by
  obtain ⟨st, stRest, stBefore, stAfter, h1, h2, h3, h4, h5, h6, h7, h8, h9, h10, h11⟩ :=
    unmatched_rsvp_skipped sampleFlags (sampleEnv 200 "body" unmatchedResp)
      { StatusCode := 200, Body := "body" } unmatchedResp [] []
      { UserID := "u2", RSVPStatus := "going" }
      (by decide) rfl rfl rfl rfl rfl rfl rfl rfl (by decide)
  exact ⟨by decide, h8, h10, by decide⟩

/-- C4: evaluation of the code at URLs whose final path segment is empty: the
identifier is the segment before the trailing slash, or "/" for a lone slash,
the Invalid URL exit is not taken, the request is sent and the output file is
opened. -/
theorem trailing_slash_not_rejected :
    pathBase "https://campfire.nianticlabs.com/discover/meetup/" = "meetup" ∧
    pathBase "/" = "/" ∧
    (run { url := "https://campfire.nianticlabs.com/discover/meetup/",
           output := "export.csv", debug := false }
        (sampleEnv 200 "body" sampleResp)).site = Site.done ∧
    Event.send (buildRequest "query" "meetup") ∈
      (run { url := "https://campfire.nianticlabs.com/discover/meetup/",
             output := "export.csv", debug := false }
        (sampleEnv 200 "body" sampleResp)).trace ∧
    (run { url := "/", output := "export.csv", debug := false }
        (sampleEnv 200 "body" sampleResp)).site = Site.done ∧
    Event.send (buildRequest "query" "/") ∈
      (run { url := "/", output := "export.csv", debug := false }
        (sampleEnv 200 "body" sampleResp)).trace ∧
    Event.openFile "export.csv" ∈
      (run { url := "/", output := "export.csv", debug := false }
        (sampleEnv 200 "body" sampleResp)).trace := by
  decide

/-- C5: a response whose status code is not 200 ends the run in log.Fatalf with
exit status 1; the message holds the status code and the body; no event of the
run opens, truncates or writes a file, so every file system is left as it was. -/
theorem non200_fatal_no_file (flags : Flags) (env : Env) (rs : Response)
    (hurl : flags.url ≠ "") (henc : env.encodeErr = none) (hreq : env.newRequestErr = none)
    (hdo : env.doResult = Except.ok rs) (hcode : rs.StatusCode ≠ 200) :
    (run flags env).site = Site.badStatus ∧ (run flags env).exitCode = 1 ∧
    (∃ msg, (run flags env).fatalMsg = some msg ∧
      msg = "Request failed with status code: " ++ toString rs.StatusCode ++
        ", response: " ++ rs.Body ∧
      Contains msg (toString rs.StatusCode) ∧ Contains msg rs.Body ∧
      Event.log msg ∈ (run flags env).trace) ∧
    (∀ e ∈ (run flags env).trace, e.touchesFile = false) ∧
    (∀ fs : FS, fsAfter fs (run flags env).trace = fs) := by
  have hrun : run flags env =
      fatalf Site.badStatus [Event.send (buildRequest env.graphQLQuery (pathBase flags.url))]
        ("Request failed with status code: " ++ toString rs.StatusCode ++
          ", response: " ++ rs.Body) := by
    rw [run_of_response flags env rs hurl henc hreq hdo]
    unfold decodeStage
    simp [hcode]
  have htouch : ∀ e ∈ (run flags env).trace, e.touchesFile = false := by
    rw [hrun]
    simp [fatalf, Event.touchesFile]
  refine ⟨by rw [hrun]; rfl, by rw [hrun]; rfl, ⟨_, by rw [hrun]; rfl, rfl, ?_, ?_, ?_⟩,
    htouch, fun fs => fsAfter_untouched fs _ htouch⟩
  · unfold Contains
    exact ⟨"Request failed with status code: ".data, (", response: " ++ rs.Body).data,
      by simp [String.data_append]⟩
  · exact contains_end _ _
  · rw [hrun]
    simp [fatalf]

/-- Witness of C5: the status 204 with the body "gone". -/
theorem non200_fatal_no_file_witness :
    (204 : Nat) ≠ 200 ∧
    (run sampleFlags (sampleEnv 204 "gone" sampleResp)).site = Site.badStatus ∧
    (run sampleFlags (sampleEnv 204 "gone" sampleResp)).exitCode = 1 ∧
    (run sampleFlags (sampleEnv 204 "gone" sampleResp)).fatalMsg =
      some "Request failed with status code: 204, response: gone" ∧
    (∀ fs : FS, fsAfter fs (run sampleFlags (sampleEnv 204 "gone" sampleResp)).trace = fs) := by
  obtain ⟨h1, h2, _, _, h5⟩ :=
    non200_fatal_no_file sampleFlags (sampleEnv 204 "gone" sampleResp)
      { StatusCode := 204, Body := "gone" } (by decide) rfl rfl rfl (by decide)
  exact ⟨by decide, h1, h2, by decide, h5⟩

theorem teeText_all (body : String) (n : Nat) (h : body.length ≤ n) :
    teeText body n = body := by
  cases body with
  | mk cs =>
    have hcs : cs.length ≤ n := h
    unfold teeText
    rw [List.take_of_length_le hcs]

/-- What holds of every 200 response whose body fails to decode: the run ends
in log.Fatalf with exit status 1 before the output file is opened (no event
opens or writes a file, every file system is left as it was); the message holds
the decode error and the text captured by the tee reader, the part of the body
the decoder had read, which is the whole body when the decoder had read it
all. -/
theorem decode_failure_fatal_no_file (flags : Flags) (env : Env) (rs : Response) (err : String)
    (hurl : flags.url ≠ "") (henc : env.encodeErr = none) (hreq : env.newRequestErr = none)
    (hdo : env.doResult = Except.ok rs) (hcode : rs.StatusCode = 200)
    (hdec : env.decodeResult = Except.error err) :
    (run flags env).site = Site.decodeFailed ∧ (run flags env).exitCode = 1 ∧
    (∃ msg, (run flags env).fatalMsg = some msg ∧
      Contains msg err ∧ Contains msg (teeText rs.Body env.decodeRead) ∧
      (rs.Body.length ≤ env.decodeRead → Contains msg rs.Body) ∧
      Event.log msg ∈ (run flags env).trace) ∧
    (∀ e ∈ (run flags env).trace, e.touchesFile = false) ∧
    (∀ fs : FS, fsAfter fs (run flags env).trace = fs) := by
  have hrun : run flags env =
      fatalf Site.decodeFailed [Event.send (buildRequest env.graphQLQuery (pathBase flags.url))]
        ("Failed to decode response: " ++ err ++ ", response: " ++
          teeText rs.Body env.decodeRead) := by
    rw [run_of_response flags env rs hurl henc hreq hdo]
    unfold decodeStage
    simp [hcode, hdec]
  have htouch : ∀ e ∈ (run flags env).trace, e.touchesFile = false := by
    rw [hrun]
    simp [fatalf, Event.touchesFile]
  refine ⟨by rw [hrun]; rfl, by rw [hrun]; rfl, ⟨_, by rw [hrun]; rfl, ?_, ?_, ?_, ?_⟩,
    htouch, fun fs => fsAfter_untouched fs _ htouch⟩
  · unfold Contains
    exact ⟨"Failed to decode response: ".data,
      (", response: " ++ teeText rs.Body env.decodeRead).data, by simp [String.data_append]⟩
  · exact contains_end _ _
  · intro hall
    rw [teeText_all _ _ hall]
    exact contains_end _ _
  · rw [hrun]
    simp [fatalf]

/-- The decode failure at the body "oops", read whole by the decoder. -/
theorem decode_failure_fatal_no_file_witness :
    (run sampleFlags
      { sampleEnv 200 "oops" sampleResp with
        decodeResult := Except.error "invalid character" }).site = Site.decodeFailed ∧
    (run sampleFlags
      { sampleEnv 200 "oops" sampleResp with
        decodeResult := Except.error "invalid character" }).fatalMsg =
      some "Failed to decode response: invalid character, response: oops" ∧
    (∀ fs : FS, fsAfter fs (run sampleFlags
      { sampleEnv 200 "oops" sampleResp with
        decodeResult := Except.error "invalid character" }).trace = fs) := by
  obtain ⟨h1, _, _, _, h5⟩ :=
    decode_failure_fatal_no_file sampleFlags
      { sampleEnv 200 "oops" sampleResp with decodeResult := Except.error "invalid character" }
      { StatusCode := 200, Body := "oops" } "invalid character" (by decide) rfl rfl rfl rfl rfl
  exact ⟨h1, by decide, h5⟩

/-- A body of 1024 bytes that starts with a byte no JSON value starts with. -/
def longBody : String := String.mk (List.replicate 1024 'x')

/-- A world in which the server answers 200 with `longBody` and the decoder
fails on the first byte, after one read of 512 bytes through the tee reader. -/
def chunkedEnv : Env :=
  { sampleEnv 200 longBody sampleResp with
    decodeRead := 512
    decodeResult := Except.error "invalid character \x27x\x27 looking for beginning of value" }

/-- C6: evaluation of the code at a 200 response with a body of 1024 bytes that
fails to decode on its first byte, of which the decoder has read 512 through
the tee reader: the run ends at the decode failure, and the message of its
log.Fatalf does not hold the raw text of the body. -/
theorem decode_message_misses_body :
    (run sampleFlags chunkedEnv).site = Site.decodeFailed ∧
    ∃ msg, (run sampleFlags chunkedEnv).fatalMsg = some msg ∧ ¬ Contains msg longBody := by
  have hrun : run sampleFlags chunkedEnv =
      fatalf Site.decodeFailed [Event.send (buildRequest "query" (pathBase sampleFlags.url))]
        ("Failed to decode response: " ++
          "invalid character \x27x\x27 looking for beginning of value" ++ ", response: " ++
          teeText longBody 512) := by
    rw [run_of_response sampleFlags chunkedEnv { StatusCode := 200, Body := longBody }
      (by decide) rfl rfl rfl]
    rfl
  refine ⟨by rw [hrun]; rfl, _, by rw [hrun]; rfl, ?_⟩
  intro hc
  have hlen := List.IsInfix.length_le hc
  have hbody : longBody.data.length = 1024 := by
    simp only [longBody, List.length_replicate]
  have htee : (teeText longBody 512).data.length = 512 := by
    simp only [teeText, longBody, List.length_take, List.length_replicate]
    omega
  have h1 : "Failed to decode response: ".data.length = 27 := by decide
  have h2 : "invalid character \x27x\x27 looking for beginning of value".data.length = 52 := by
    decide
  have h3 : ", response: ".data.length = 12 := by decide
  simp only [String.data_append, List.length_append, hbody, htee, h1, h2, h3] at hlen
  omega

/-- C7: when the RSVP list is empty, whatever the member edges, the join gives
the header row alone, and the records handed to the CSV writer, in the one
WriteAll of the run, are exactly [[id, name, status]]. -/
theorem empty_rsvps_header_only (flags : Flags) (env : Env) (rs : Response) (resp : Resp)
    (hurl : flags.url ≠ "") (henc : env.encodeErr = none) (hreq : env.newRequestErr = none)
    (hdo : env.doResult = Except.ok rs) (hcode : rs.StatusCode = 200)
    (hdec : env.decodeResult = Except.ok resp) (hopen : env.openErr = none)
    (hrsvps : resp.Data.Event.RSVPStatuses = []) :
    join resp.Data.Event.RSVPStatuses resp.Data.Event.Members.Edges =
      some { records := [["id", "name", "status"]], warnings := [] } ∧
    Event.writeAll flags.output [["id", "name", "status"]] env.writeErr ∈
      (run flags env).trace ∧
    (∀ path records err, Event.writeAll path records err ∈ (run flags env).trace →
      records = [["id", "name", "status"]]) := by
  have hrun := run_of_decoded flags env rs resp hurl henc hreq hdo hcode hdec
  refine ⟨by rw [hrsvps]; rfl, ?_, ?_⟩
  · cases hwrite : env.writeErr with
    | none =>
      rw [writeStage_done flags env resp _ hopen hwrite] at hrun
      rw [hrun]
      simp [hrsvps, header]
    | some werr =>
      rw [writeStage_failed flags env resp _ werr hopen hwrite] at hrun
      rw [hrun]
      simp [hrsvps, header, fatalf]
  · intro path records err hmem
    cases hwrite : env.writeErr with
    | none =>
      rw [writeStage_done flags env resp _ hopen hwrite] at hrun
      rw [hrun] at hmem
      cases hd : flags.debug <;> simp [hrsvps, header, hd] at hmem <;> exact hmem.2.1
    | some werr =>
      rw [writeStage_failed flags env resp _ werr hopen hwrite] at hrun
      rw [hrun] at hmem
      cases hd : flags.debug <;> simp [hrsvps, header, fatalf, hd] at hmem <;> exact hmem.2.1

/-- A response without RSVP entries and with two members. -/
def noRsvpResp : Resp :=
  { Data := { Event := {
      RSVPStatuses := [],
      Members := { Edges := [{ Node := { ID := "u1", DisplayName := "Alice" } },
                             { Node := { ID := "u2", DisplayName := "Bob" } }] } } } }

/-- Witness of C7: no RSVP entries, two members. -/
theorem empty_rsvps_header_only_witness :
    noRsvpResp.Data.Event.RSVPStatuses = [] ∧
    Event.writeAll "export.csv" [["id", "name", "status"]] none ∈
      (run sampleFlags (sampleEnv 200 "body" noRsvpResp)).trace :=
  ⟨rfl, (empty_rsvps_header_only sampleFlags (sampleEnv 200 "body" noRsvpResp)
      { StatusCode := 200, Body := "body" } noRsvpResp (by decide) rfl rfl rfl rfl rfl rfl rfl).2.1⟩

/-- A world in which the output file opens and the CSV write then fails. -/
def writeFailEnv : Env :=
  { sampleEnv 200 "body" sampleResp with writeErr := some "no space left on device" }

/-- C8, as stated, fails: when the CSV write fails after the file was opened,
the run ends in log.Fatalf with exit status 1 and the trace holds no close of
the output file. -/
theorem close_skipped_on_write_failure :
    (run sampleFlags writeFailEnv).site = Site.writeFailed ∧
    (run sampleFlags writeFailEnv).exitCode = 1 ∧
    Event.openFile "export.csv" ∈ (run sampleFlags writeFailEnv).trace ∧
    Event.closeFile "export.csv" ∉ (run sampleFlags writeFailEnv).trace := by
  decide

/-- C8, as amended: a run that has opened the output file ends in one of two
ways.  Either the CSV write succeeds, main returns with status 0, and the
deferred calls run last: the close of the output file, then the close of the
response body.  Or the CSV write fails, log.Fatalf ends the process with
status 1, and no deferred call runs: the trace ends with the exit and holds no
close of the output file. -/
theorem close_after_open (flags : Flags) (env : Env)
    (hopened : Event.openFile flags.output ∈ (run flags env).trace) :
    ((run flags env).site = Site.done ∧ (run flags env).exitCode = 0 ∧
      env.writeErr = none ∧
      ∃ pre, (run flags env).trace =
        pre ++ [Event.closeFile flags.output, Event.closeBody]) ∨
    ((run flags env).site = Site.writeFailed ∧ (run flags env).exitCode = 1 ∧
      env.writeErr ≠ none ∧
      Event.closeFile flags.output ∉ (run flags env).trace ∧
      (run flags env).trace.getLast? = some (Event.exit 1)) := by
  by_cases hurl : flags.url = ""
  · simp [run, hurl] at hopened
  cases henc : env.encodeErr with
  | some err => simp [run, hurl, pathBase_ne_empty, henc, fatalf] at hopened
  | none =>
  cases hreq : env.newRequestErr with
  | some err => simp [run, hurl, pathBase_ne_empty, henc, hreq, fatalf] at hopened
  | none =>
  cases hdo : env.doResult with
  | error err => simp [run, hurl, pathBase_ne_empty, henc, hreq, hdo, fatalf] at hopened
  | ok rs =>
  by_cases hcode : rs.StatusCode = 200
  swap
  · rw [run_of_response flags env rs hurl henc hreq hdo] at hopened
    simp [decodeStage, hcode, fatalf] at hopened
  cases hdec : env.decodeResult with
  | error err =>
    rw [run_of_response flags env rs hurl henc hreq hdo] at hopened
    simp [decodeStage, hcode, hdec, fatalf] at hopened
  | ok resp =>
  have hrun := run_of_decoded flags env rs resp hurl henc hreq hdo hcode hdec
  cases hopen : env.openErr with
  | some err =>
    rw [hrun] at hopened
    cases hd : flags.debug <;> simp [writeStage, hopen, fatalf, hd] at hopened
  | none =>
  cases hwrite : env.writeErr with
  | none =>
    left
    rw [writeStage_done flags env resp _ hopen hwrite] at hrun
    rw [hrun]
    exact ⟨rfl, rfl, rfl, _, append_three _ _ _ _⟩
  | some werr =>
    right
    rw [writeStage_failed flags env resp _ werr hopen hwrite] at hrun
    rw [hrun]
    refine ⟨rfl, rfl, by simp, ?_, ?_⟩
    · cases hd : flags.debug <;> simp [fatalf, hd]
    · exact getLast_append_two _ _ _

/-- Witness of C8, as amended: a run in which every step succeeds. -/
theorem close_after_open_witness :
    Event.openFile "export.csv" ∈ (run sampleFlags (sampleEnv 200 "body" sampleResp)).trace ∧
    (run sampleFlags (sampleEnv 200 "body" sampleResp)).site = Site.done ∧
    Event.closeFile "export.csv" ∈ (run sampleFlags (sampleEnv 200 "body" sampleResp)).trace := by
  rcases close_after_open sampleFlags (sampleEnv 200 "body" sampleResp) (by decide) with
    ⟨h1, _, _, _⟩ | ⟨_, _, h3, _⟩
  · exact ⟨by decide, h1, by decide⟩
  · exact absurd rfl h3

end Campfire
